import Mathlib

/-
  Verification development for the LabExT-Simulation motion & geometry core.

  Shallow embedding of the Python sources over exact rationals:
  - `labext_simulation/views.py`      : `AbsoluteView` (rigid transform fit and application)
  - `labext_simulation/SimulatedStage.py` : `__calculate_waypoints` (trajectory
    synchronization) and the real-time pacing of the move loops
  - `labext_simulation/models.py`     : safety-envelope meshes and collision queries
  - `labext_simulation/simulation.py` : per-step collision detectors and their state
-/

namespace LabSim

/-- A 3-component vector, embedding the `np.ndarray` points of the source over `ℚ`. -/
structure Vec3 where
  x : ℚ
  y : ℚ
  z : ℚ
  deriving DecidableEq, Repr

def Vec3.add (a b : Vec3) : Vec3 := ⟨a.x + b.x, a.y + b.y, a.z + b.z⟩

def Vec3.sub (a b : Vec3) : Vec3 := ⟨a.x - b.x, a.y - b.y, a.z - b.z⟩

instance : Add Vec3 := ⟨Vec3.add⟩

instance : Sub Vec3 := ⟨Vec3.sub⟩

/-- A 3x3 matrix, embedding the rotation matrix held by `scipy.spatial.transform.Rotation`. -/
structure Mat3 where
  m11 : ℚ
  m12 : ℚ
  m13 : ℚ
  m21 : ℚ
  m22 : ℚ
  m23 : ℚ
  m31 : ℚ
  m32 : ℚ
  m33 : ℚ
  deriving DecidableEq, Repr

/-- Matrix-vector product: `Rotation.apply(v)` applies the rotation matrix to `v`. -/
def Mat3.mulVec (M : Mat3) (v : Vec3) : Vec3 :=
  ⟨M.m11 * v.x + M.m12 * v.y + M.m13 * v.z,
   M.m21 * v.x + M.m22 * v.y + M.m23 * v.z,
   M.m31 * v.x + M.m32 * v.y + M.m33 * v.z⟩

def Mat3.transpose (M : Mat3) : Mat3 :=
  ⟨M.m11, M.m21, M.m31, M.m12, M.m22, M.m32, M.m13, M.m23, M.m33⟩

def Mat3.mul (A B : Mat3) : Mat3 :=
  ⟨A.m11 * B.m11 + A.m12 * B.m21 + A.m13 * B.m31,
   A.m11 * B.m12 + A.m12 * B.m22 + A.m13 * B.m32,
   A.m11 * B.m13 + A.m12 * B.m23 + A.m13 * B.m33,
   A.m21 * B.m11 + A.m22 * B.m21 + A.m23 * B.m31,
   A.m21 * B.m12 + A.m22 * B.m22 + A.m23 * B.m32,
   A.m21 * B.m13 + A.m22 * B.m23 + A.m23 * B.m33,
   A.m31 * B.m11 + A.m32 * B.m21 + A.m33 * B.m31,
   A.m31 * B.m12 + A.m32 * B.m22 + A.m33 * B.m32,
   A.m31 * B.m13 + A.m32 * B.m23 + A.m33 * B.m33⟩

def Mat3.id : Mat3 := ⟨1, 0, 0, 0, 1, 0, 0, 0, 1⟩

def Mat3.zero : Mat3 := ⟨0, 0, 0, 0, 0, 0, 0, 0, 0⟩

/--
`AbsoluteView` from `views.py`: a fitted rigid transform holding the rotation and the
two centroid offsets.  `scipy`'s `Rotation` object is embedded as its matrix; applying
it with `inverse=True` applies the transpose (the inverse of an orthonormal matrix).
-/
structure AbsoluteView where
  rotation : Mat3
  model_offset : Vec3
  world_offset : Vec3
  deriving DecidableEq

/-- `AbsoluteView.model_to_world`:
`self.rotation.apply(np.array(model_coordinates) - self.model_offset) + self.world_offset`. -/
def AbsoluteView.model_to_world (V : AbsoluteView) (p : Vec3) : Vec3 :=
  V.rotation.mulVec (p - V.model_offset) + V.world_offset

/-- `AbsoluteView.world_to_model`:
`self.rotation.apply(np.array(world_coordinates) - self.world_offset, inverse=True) + self.model_offset`. -/
def AbsoluteView.world_to_model (V : AbsoluteView) (p : Vec3) : Vec3 :=
  V.rotation.transpose.mulVec (p - V.world_offset) + V.model_offset

/-- Sum of a list of vectors, as used by `ndarray.mean(axis=0)`. -/
def vecSum (l : List Vec3) : Vec3 :=
  l.foldr (fun a b => a + b) ⟨0, 0, 0⟩

/-- `ndarray.mean(axis=0)`: componentwise arithmetic mean of a point list.
For the empty list numpy yields `nan`; over `ℚ` the division by zero yields `0`. -/
def vecMean (l : List Vec3) : Vec3 :=
  ⟨(vecSum l).x / l.length, (vecSum l).y / l.length, (vecSum l).z / l.length⟩

/--
`AbsoluteView.__init__` from `views.py`, the `FrameAligner.fit` of the spec: computes the
two centroids and hands the centered point sets to `scipy.spatial.transform.Rotation.align_vectors`
(the external least-squares rotation fit, abstracted here as the parameter `align`, in the
source's argument order: centered world points first, centered model points second).
The constructor performs no validation of any kind on its inputs: no count check and no
degeneracy check.
-/
def AbsoluteView.fit (align : List Vec3 → List Vec3 → Mat3)
    (model_coordinates world_coordinates : List Vec3) : AbsoluteView :=
  let model_offset := vecMean model_coordinates
  let world_offset := vecMean world_coordinates
  { rotation := align (world_coordinates.map (fun p => p - world_offset))
      (model_coordinates.map (fun p => p - model_offset)),
    model_offset := model_offset,
    world_offset := world_offset }

/-- Outer product of two vectors, a building block of the cross-covariance matrix. -/
def outer (a b : Vec3) : Mat3 :=
  ⟨a.x * b.x, a.x * b.y, a.x * b.z,
   a.y * b.x, a.y * b.y, a.y * b.z,
   a.z * b.x, a.z * b.y, a.z * b.z⟩

def Mat3.add (A B : Mat3) : Mat3 :=
  ⟨A.m11 + B.m11, A.m12 + B.m12, A.m13 + B.m13,
   A.m21 + B.m21, A.m22 + B.m22, A.m23 + B.m23,
   A.m31 + B.m31, A.m32 + B.m32, A.m33 + B.m33⟩

/--
Modelled from the spec: the cross-covariance matrix of the centered point pairs, whose
singular-value decomposition `scipy`'s `Rotation.align_vectors` (an external library, not
part of this repository) computes internally; the spec requires detecting a near-zero
singular value of this matrix.  When it is the zero matrix, all its singular values are
zero, so the input is degenerate.
-/
def crossCovariance (ws ms : List Vec3) : Mat3 :=
  (List.zipWith outer ws ms).foldr Mat3.add Mat3.zero

/--
Python extended slicing `l[::sr]` with stride `sr ≥ 1`: the elements of `l` at indices
`0, sr, 2*sr, ...` below `l.length`; there are `⌈length / sr⌉ = (length + sr - 1) / sr`
of them.
-/
def sliceStep (sr : ℕ) (l : List ℚ) : List ℚ :=
  (List.range ((l.length + sr - 1) / sr)).map (fun i => l.getD (i * sr) 0)

/--
`max(tx, ty, tz, key=lambda t: t.size)` from `SimulatedStage.__calculate_waypoints`:
python's `max` keeps the earliest argument on ties, replacing the current maximum only
on a strictly larger key.
-/
def masterTimeline (tx ty tz : List ℚ) : List ℚ :=
  if tx.length < ty.length then
    (if ty.length < tz.length then tz else ty)
  else
    (if tx.length < tz.length then tz else tx)

/-- `t = np.append(t_max[::int(sampling_rate)], t_max[-1])`: decimate the master
timeline and re-append its final timestamp. -/
def timeVector (sr : ℕ) (tx ty tz : List ℚ) : List ℚ :=
  sliceStep sr (masterTimeline tx ty tz) ++ [(masterTimeline tx ty tz).getLastD 0]

/--
`x = np.append(xs[::int(sampling_rate)], target[0] if xs.size == 0 else xs[-1])`
from `__calculate_waypoints`: decimate one axis's position samples and re-append the
final value — the commanded target when the segment is empty, its last sample otherwise.
-/
def axisResampled (sr : ℕ) (tgt : ℚ) (ps : List ℚ) : List ℚ :=
  sliceStep sr ps ++ [if ps.length = 0 then tgt else ps.getLastD 0]

/--
`x = np.pad(x, (0, t.size - x.size), mode='constant', constant_values=x[-1])` from
`__calculate_waypoints`: pad the resampled axis on the right up to the length `tlen` of
the shared time vector by repeating its final value.  (The pad width
`t.size - x.size` is the `ℕ` truncated subtraction here; numpy would reject a negative
width, which under the source's length relations never occurs.)
-/
def axisVector (sr : ℕ) (tlen : ℕ) (tgt : ℚ) (ps : List ℚ) : List ℚ :=
  axisResampled sr tgt ps ++
    List.replicate (tlen - (axisResampled sr tgt ps).length)
      ((axisResampled sr tgt ps).getLastD 0)

/--
`SimulatedStage.__calculate_waypoints` from `SimulatedStage.py`: per-axis motion
segments `(tx, xs)`, `(ty, ys)`, `(tz, zs)` (timestamps and positions, as produced by the
external `trapezoidal_velocity_profile_by_integration`) are synchronized onto the
decimated master timeline.  When all three timestamp vectors are empty the method logs
an error and falls off with a bare `return`, i.e. it returns python's `None` — embedded
as `none`.  Otherwise it returns `(t, x, y, z)` (the source packs `x, y, z` as the rows
of `np.column_stack((x, y, z))`).
-/
def calculateWaypoints (sr : ℕ) (target : Vec3) (tx xs ty ys tz zs : List ℚ) :
    Option (List ℚ × List ℚ × List ℚ × List ℚ) :=
  if tx.length = 0 ∧ ty.length = 0 ∧ tz.length = 0 then
    none
  else
    some (timeVector sr tx ty tz,
          axisVector sr (timeVector sr tx ty tz).length target.x xs,
          axisVector sr (timeVector sr tx ty tz).length target.y ys,
          axisVector sr (timeVector sr tx ty tz).length target.z zs)

/--
The real-time pacing of the per-waypoint loops in `SimulatedStage.move_relative` and
`SimulatedStage.move_absolute`: each frame carries its waypoint timestamp `t[i]` and the
wall-clock duration `render_time` of the step just rendered (an input of the embedding,
since it is measured from the wall clock).  When `parameters.realtime` is set the loop
executes `sleep(max(t[i] - current_ts - render_time, 0))`; otherwise it performs no sleep
at all.  `current_ts` starts at `0.0` and is set to `t[i]` after each frame.  The result
is the list of sleep durations actually performed, in order.
-/
def stepSleeps (realtime : Bool) : ℚ → List (ℚ × ℚ) → List ℚ
  | _, [] => []
  | current_ts, (ti, ri) :: rest =>
      (if realtime then [max (ti - current_ts - ri) 0] else []) ++ stepSleeps realtime ti rest

/--
An axis-aligned box mesh as built by `vedo.Box(pos, width, length, height)` in
`models.py`: `pos` is the center, `width`, `length`, `height` the extents along X, Y, Z.
-/
structure BoxMesh where
  pos : Vec3
  width : ℚ
  len : ℚ
  height : ℚ
  deriving DecidableEq

/-- Overlap of the two intervals `[c1 - e1/2, c1 + e1/2]` and `[c2 - e2/2, c2 + e2/2]`
(interiors intersect). -/
def overlap1 (c1 e1 c2 e2 : ℚ) : Bool :=
  decide (c1 - e1 / 2 < c2 + e2 / 2) && decide (c2 - e2 / 2 < c1 + e1 / 2)

/--
The mesh intersection query
`a.triangulate().boolean("intersect", b.triangulate()).points().size > 0` of
`models.py`, evaluated on the axis-aligned safety boxes the source builds: the boolean
intersection of two axis-aligned boxes is non-empty exactly when their extents overlap
on every axis.  (`vedo`/VTK is an external library; its box-box result is embedded as
this interval test, with open boundary contact per the spec's stated tolerance choice.)
-/
def BoxMesh.intersects (a b : BoxMesh) : Bool :=
  overlap1 a.pos.x a.width b.pos.x b.width &&
  overlap1 a.pos.y a.len b.pos.y b.len &&
  overlap1 a.pos.z a.height b.pos.z b.height

/-- The part of `StageModel` (from `models.py`) that the collision queries read:
`self._safety_distance_mesh`, which is `None` until `mesh()` has been called. -/
structure StageModelE where
  safety_distance_mesh : Option BoxMesh
  deriving DecidableEq

/--
`StageModel.are_colliding`:
`if self._safety_distance_mesh is None or other._safety_distance_mesh is None: return False`,
otherwise the mesh intersection query on the two safety meshes.
-/
def StageModelE.are_colliding (m1 m2 : StageModelE) : Bool :=
  match m1.safety_distance_mesh, m2.safety_distance_mesh with
  | some a, some b => a.intersects b
  | _, _ => false

/-- The part of `ChipModel` (from `models.py`) that `is_stage_colliding` reads. -/
structure ChipModelE where
  safety_distance_mesh : Option BoxMesh
  deriving DecidableEq

/--
`ChipModel.is_stage_colliding`:
`if self._safety_distance_mesh is None or stage_model._safety_distance_mesh is None: return False`,
otherwise the mesh intersection query.
-/
def ChipModelE.is_stage_colliding (c : ChipModelE) (m : StageModelE) : Bool :=
  match c.safety_distance_mesh, m.safety_distance_mesh with
  | some a, some b => a.intersects b
  | _, _ => false

/--
The `Simulation` state touched by the two per-step collision detectors in
`simulation.py`: the sticky flags `stage_collision` / `chip_collision` and the on-screen
`Text2D` status texts and their colors.
-/
structure SimState where
  stage_collision : Bool
  chip_collision : Bool
  stage_text : String
  stage_color : String
  chip_text : String
  chip_color : String
  deriving DecidableEq

/-- `any(m1.are_colliding(m2) for m1, m2 in combinations(self.stage_models.values(), 2))`. -/
def anyPairColliding : List StageModelE → Bool
  | [] => false
  | m :: rest => rest.any (fun o => m.are_colliding o) || anyPairColliding rest

/--
`Simulation._detect_stage_collision`: on a detected collision it sets the status text,
turns it red and sets `self.stage_collision = True`; otherwise it only resets the text
and color — the flag is left untouched.
-/
def detectStageCollision (models : List StageModelE) (s : SimState) : SimState :=
  if anyPairColliding models then
    { s with stage_text := "STAGE-STAGE COLLISION DETECTED",
             stage_color := "red",
             stage_collision := true }
  else
    { s with stage_text := "No collision detected", stage_color := "green" }

/--
`Simulation._detect_chip_collision`: returns unchanged when no chip model is set;
otherwise iterates over all stage models, setting text/color/flag on a collision and
resetting only text and color otherwise.
-/
def detectChipCollision (chip : Option ChipModelE) (models : List StageModelE)
    (s : SimState) : SimState :=
  match chip with
  | none => s
  | some c =>
      models.foldl
        (fun st m =>
          if c.is_stage_colliding m then
            { st with chip_text := "CHIP-STAGE COLLISION DETECTED",
                      chip_color := "red",
                      chip_collision := true }
          else
            { st with chip_text := "No collision detected", chip_color := "green" }) s

/-- `Simulation.render_simulation_step`: runs the stage detector, then the chip detector
(the `plotter.render()` call is pure display).  The stage models and chip model carry the
meshes as they stand at that step. -/
def renderSimulationStep (models : List StageModelE) (chip : Option ChipModelE)
    (s : SimState) : SimState :=
  detectChipCollision chip models (detectStageCollision models s)

/-- A whole run: one `render_simulation_step` per step, each with the meshes of that
step. -/
def runSteps : List (List StageModelE × Option ChipModelE) → SimState → SimState
  | [], s => s
  | (models, chip) :: rest, s => runSteps rest (renderSimulationStep models chip s)

/-! Helper lemmas about the list operations of the waypoint synchronization. -/

theorem getLastD_append_singleton (l : List ℚ) (a d : ℚ) : (l ++ [a]).getLastD d = a := by
  induction l generalizing d with
  | nil => rfl
  | cons x xs ih => rw [List.cons_append, List.getLastD_cons]; exact ih x

theorem getLastD_replicate (k : ℕ) (a d : ℚ) :
    (List.replicate (k + 1) a).getLastD d = a := by
  induction k generalizing d with
  | zero => rfl
  | succ n ih => rw [List.replicate_succ, List.getLastD_cons]; exact ih a

theorem getLastD_append_replicate (l : List ℚ) (k : ℕ) (a d : ℚ) :
    (l ++ List.replicate (k + 1) a).getLastD d = a := by
  induction l generalizing d with
  | nil => rw [List.nil_append]; exact getLastD_replicate k a d
  | cons x xs ih => rw [List.cons_append, List.getLastD_cons]; exact ih x

theorem getLastD_pad (l : List ℚ) (k : ℕ) (d : ℚ) :
    (l ++ List.replicate k (l.getLastD d)).getLastD d = l.getLastD d := by
  cases k with
  | zero => simp
  | succ n => exact getLastD_append_replicate l n (l.getLastD d) d

theorem getLastD_eq_get {l : List ℚ} (h : l ≠ []) (d : ℚ) :
    l.getLastD d = l.get ⟨l.length - 1, Nat.sub_lt (List.length_pos.mpr h) one_pos⟩ := by
  rw [List.getLastD_eq_getLast? d l, List.getLast?_eq_getLast l h, Option.getD_some,
    List.getLast_eq_getElem l h]
  rfl

theorem length_sliceStep (sr : ℕ) (l : List ℚ) :
    (sliceStep sr l).length = (l.length + sr - 1) / sr := by
  simp [sliceStep]

theorem sliceStep_index_lt {sr n i : ℕ} (hsr : 1 ≤ sr) (hi : i < (n + sr - 1) / sr) :
    i * sr < n := by
  have h1 : (i + 1) * sr ≤ n + sr - 1 :=
    (Nat.le_div_iff_mul_le (by omega)).mp hi
  rw [Nat.succ_mul] at h1
  generalize i * sr = a at h1 ⊢
  omega

theorem pairwise_getElem_lt {l : List ℚ} (hl : l.Pairwise (· < ·)) {i j : ℕ}
    (hi : i < l.length) (hj : j < l.length) (hij : i < j) : l[i] < l[j] := by
  have := List.pairwise_iff_get.mp hl ⟨i, hi⟩ ⟨j, hj⟩ (Fin.mk_lt_mk.mpr hij)
  simpa [List.get_eq_getElem] using this

theorem pairwise_lt_sliceStep {sr : ℕ} (hsr : 1 ≤ sr) {l : List ℚ}
    (hl : l.Pairwise (· < ·)) : (sliceStep sr l).Pairwise (· < ·) := by
  rw [sliceStep, List.pairwise_map]
  refine List.Pairwise.imp_of_mem ?_ (List.pairwise_lt_range _)
  intro i j hi hj hij
  rw [List.mem_range] at hi hj
  have hi2 : i * sr < l.length := sliceStep_index_lt hsr hi
  have hj2 : j * sr < l.length := sliceStep_index_lt hsr hj
  rw [List.getD_eq_getElem l 0 hi2, List.getD_eq_getElem l 0 hj2]
  exact pairwise_getElem_lt hl hi2 hj2 ((Nat.mul_lt_mul_right (by omega)).mpr hij)

theorem mem_sliceStep_le_getLastD {sr : ℕ} (hsr : 1 ≤ sr) {l : List ℚ}
    (hl : l.Pairwise (· < ·)) (hne : l ≠ []) {a : ℚ} (ha : a ∈ sliceStep sr l) :
    a ≤ l.getLastD 0 := by
  rw [sliceStep, List.mem_map] at ha
  obtain ⟨i, hi, rfl⟩ := ha
  rw [List.mem_range] at hi
  have hi2 : i * sr < l.length := sliceStep_index_lt hsr hi
  rw [List.getD_eq_getElem l 0 hi2, getLastD_eq_get hne 0]
  rcases Nat.lt_or_ge (i * sr) (l.length - 1) with h | h
  · exact le_of_lt (pairwise_getElem_lt hl hi2 (Nat.sub_lt (by omega) one_pos) h)
  · have hix : i * sr = l.length - 1 := by omega
    exact le_of_eq (by simp only [hix, List.get_eq_getElem])

theorem le_masterTimeline_length (tx ty tz : List ℚ) :
    tx.length ≤ (masterTimeline tx ty tz).length ∧
    ty.length ≤ (masterTimeline tx ty tz).length ∧
    tz.length ≤ (masterTimeline tx ty tz).length := by
  unfold masterTimeline
  split_ifs <;> refine ⟨by omega, by omega, by omega⟩

theorem masterTimeline_pairwise {tx ty tz : List ℚ} (htx : tx.Pairwise (· < ·))
    (hty : ty.Pairwise (· < ·)) (htz : tz.Pairwise (· < ·)) :
    (masterTimeline tx ty tz).Pairwise (· < ·) := by
  unfold masterTimeline
  split_ifs <;> assumption

theorem masterTimeline_ne_nil {tx ty tz : List ℚ}
    (hne : ¬(tx.length = 0 ∧ ty.length = 0 ∧ tz.length = 0)) :
    masterTimeline tx ty tz ≠ [] := by
  intro hmt
  obtain ⟨h1, h2, h3⟩ := le_masterTimeline_length tx ty tz
  rw [hmt] at h1 h2 h3
  simp only [List.length_nil, Nat.le_zero] at h1 h2 h3
  exact hne ⟨h1, h2, h3⟩

theorem timeVector_length (sr : ℕ) (tx ty tz : List ℚ) :
    (timeVector sr tx ty tz).length
      = ((masterTimeline tx ty tz).length + sr - 1) / sr + 1 := by
  simp [timeVector, length_sliceStep]

theorem length_axisResampled (sr : ℕ) (tgt : ℚ) (ps : List ℚ) :
    (axisResampled sr tgt ps).length = (ps.length + sr - 1) / sr + 1 := by
  simp [axisResampled, length_sliceStep]

theorem axisVector_length {sr tlen : ℕ} (tgt : ℚ) (ps : List ℚ)
    (h : (ps.length + sr - 1) / sr + 1 ≤ tlen) :
    (axisVector sr tlen tgt ps).length = tlen := by
  simp only [axisVector, List.length_append, List.length_replicate, length_axisResampled]
  omega

theorem axisVector_getLastD {sr tlen : ℕ} {tgt : ℚ} {ps : List ℚ}
    (h : ps ≠ [] → ps.getLastD 0 = tgt) :
    (axisVector sr tlen tgt ps).getLastD 0 = tgt := by
  rw [axisVector, getLastD_pad, axisResampled, getLastD_append_singleton]
  by_cases hps : ps.length = 0
  · rw [if_pos hps]
  · rw [if_neg hps]
    exact h (fun hh => hps (by rw [hh]; rfl))

/-! Helper lemmas about pacing, collision queries and the per-step detectors. -/

theorem stepSleeps_of_not_realtime (cur : ℚ) (frames : List (ℚ × ℚ)) :
    stepSleeps false cur frames = [] := by
  induction frames generalizing cur with
  | nil => rfl
  | cons f rest ih =>
      obtain ⟨ti, ri⟩ := f
      rw [stepSleeps, if_neg (by simp), List.nil_append]
      exact ih ti

theorem stepSleeps_of_realtime (cur : ℚ) (frames : List (ℚ × ℚ)) :
    stepSleeps true cur frames
      = List.zipWith (fun f prev => max 0 (f.1 - prev - f.2)) frames
          (cur :: frames.map Prod.fst) := by
  induction frames generalizing cur with
  | nil => rfl
  | cons f rest ih =>
      obtain ⟨ti, ri⟩ := f
      rw [stepSleeps, if_pos rfl, List.map_cons, List.zipWith_cons_cons,
        List.singleton_append, ih ti]
      rw [max_comm]

theorem overlap1_symm (c1 e1 c2 e2 : ℚ) : overlap1 c1 e1 c2 e2 = overlap1 c2 e2 c1 e1 := by
  rw [overlap1, overlap1, Bool.and_comm]

theorem intersects_symm (a b : BoxMesh) : a.intersects b = b.intersects a := by
  rw [BoxMesh.intersects, BoxMesh.intersects,
    overlap1_symm a.pos.x a.width b.pos.x b.width,
    overlap1_symm a.pos.y a.len b.pos.y b.len,
    overlap1_symm a.pos.z a.height b.pos.z b.height]

theorem detectStageCollision_stage_flag_mono {models : List StageModelE} {s : SimState}
    (h : s.stage_collision = true) :
    (detectStageCollision models s).stage_collision = true := by
  rw [detectStageCollision]
  split <;> simp [h]

theorem detectStageCollision_chip_flag (models : List StageModelE) (s : SimState) :
    (detectStageCollision models s).chip_collision = s.chip_collision := by
  rw [detectStageCollision]
  split <;> rfl

theorem detectChipCollision_chip_flag_mono {chip : Option ChipModelE}
    {models : List StageModelE} {s : SimState} (h : s.chip_collision = true) :
    (detectChipCollision chip models s).chip_collision = true := by
  cases chip with
  | none => exact h
  | some c =>
      rw [detectChipCollision]
      induction models generalizing s with
      | nil => exact h
      | cons m rest ih =>
          rw [List.foldl_cons]
          apply ih
          split <;> simp [h]

theorem detectChipCollision_stage_flag (chip : Option ChipModelE)
    (models : List StageModelE) (s : SimState) :
    (detectChipCollision chip models s).stage_collision = s.stage_collision := by
  cases chip with
  | none => rfl
  | some c =>
      rw [detectChipCollision]
      induction models generalizing s with
      | nil => rfl
      | cons m rest ih =>
          rw [List.foldl_cons, ih]
          split <;> rfl

theorem renderSimulationStep_flags_mono (models : List StageModelE)
    (chip : Option ChipModelE) (s : SimState) :
    (s.stage_collision = true →
      (renderSimulationStep models chip s).stage_collision = true) ∧
    (s.chip_collision = true →
      (renderSimulationStep models chip s).chip_collision = true) := by
  constructor
  · intro h
    rw [renderSimulationStep, detectChipCollision_stage_flag]
    exact detectStageCollision_stage_flag_mono h
  · intro h
    rw [renderSimulationStep]
    exact detectChipCollision_chip_flag_mono
      (by rw [detectStageCollision_chip_flag]; exact h)

theorem Vec3.add_def (a b : Vec3) : a + b = ⟨a.x + b.x, a.y + b.y, a.z + b.z⟩ := rfl

theorem Vec3.sub_def (a b : Vec3) : a - b = ⟨a.x - b.x, a.y - b.y, a.z - b.z⟩ := rfl

/-! The claims. -/

/--
C2: for every fitted rigid transform and every point `p`,
`world_to_model (model_to_world p)` equals `p` within `1e-9` absolute tolerance in
each component.  The hypothesis states the invariant scipy's `Rotation` object
guarantees by construction: its matrix is orthonormal, so applying it with
`inverse=True` applies its transpose, which is its inverse.  The round trip is in fact
exact over `ℚ`, hence within the tolerance.
-/
theorem absolute_view_roundtrip (V : AbsoluteView)
    (h : V.rotation.transpose.mul V.rotation = Mat3.id) (p : Vec3) :
    |((V.world_to_model (V.model_to_world p)).x - p.x)| ≤ 1 / 1000000000 ∧
    |((V.world_to_model (V.model_to_world p)).y - p.y)| ≤ 1 / 1000000000 ∧
    |((V.world_to_model (V.model_to_world p)).z - p.z)| ≤ 1 / 1000000000 := by
  have hq : V.world_to_model (V.model_to_world p) = p := by
    obtain ⟨R, mo, wo⟩ := V
    obtain ⟨a11, a12, a13, a21, a22, a23, a31, a32, a33⟩ := R
    obtain ⟨px, py, pz⟩ := p
    obtain ⟨mx, my, mz⟩ := mo
    obtain ⟨wx, wy, wz⟩ := wo
    simp only [Mat3.transpose, Mat3.mul, Mat3.id, Mat3.mk.injEq] at h
    obtain ⟨h11, h12, h13, h21, h22, h23, h31, h32, h33⟩ := h
    simp only [AbsoluteView.world_to_model, AbsoluteView.model_to_world, Mat3.transpose,
      Mat3.mulVec, Vec3.add_def, Vec3.sub_def, Vec3.mk.injEq]
    refine ⟨?_, ?_, ?_⟩
    · linear_combination (px - mx) * h11 + (py - my) * h12 + (pz - mz) * h13
    · linear_combination (px - mx) * h21 + (py - my) * h22 + (pz - mz) * h23
    · linear_combination (px - mx) * h31 + (py - my) * h32 + (pz - mz) * h33
  rw [hq]
  norm_num

/-- Witness for C2 at a concrete transform and point. -/
theorem absolute_view_roundtrip_witness :
    |((AbsoluteView.world_to_model ⟨Mat3.id, ⟨1, 2, 3⟩, ⟨4, 5, 6⟩⟩
        (AbsoluteView.model_to_world ⟨Mat3.id, ⟨1, 2, 3⟩, ⟨4, 5, 6⟩⟩ ⟨7, 8, 9⟩)).x
      - (7 : ℚ))| ≤ 1 / 1000000000 ∧
    |((AbsoluteView.world_to_model ⟨Mat3.id, ⟨1, 2, 3⟩, ⟨4, 5, 6⟩⟩
        (AbsoluteView.model_to_world ⟨Mat3.id, ⟨1, 2, 3⟩, ⟨4, 5, 6⟩⟩ ⟨7, 8, 9⟩)).y
      - (8 : ℚ))| ≤ 1 / 1000000000 ∧
    |((AbsoluteView.world_to_model ⟨Mat3.id, ⟨1, 2, 3⟩, ⟨4, 5, 6⟩⟩
        (AbsoluteView.model_to_world ⟨Mat3.id, ⟨1, 2, 3⟩, ⟨4, 5, 6⟩⟩ ⟨7, 8, 9⟩)).z
      - (9 : ℚ))| ≤ 1 / 1000000000 :=
  absolute_view_roundtrip ⟨Mat3.id, ⟨1, 2, 3⟩, ⟨4, 5, 6⟩⟩
    (by norm_num [Mat3.id, Mat3.transpose, Mat3.mul]) ⟨7, 8, 9⟩

/--
C3 (code bug evidence): `AbsoluteView.__init__` performs no correspondence-count
check — no `InsufficientCorrespondenceError` exists anywhere in the repository — and on
a single correspondence pair it completes and returns a transform (centroids are the
points themselves) instead of failing.
-/
theorem fit_single_pair_returns_transform :
    AbsoluteView.fit (fun _ _ => Mat3.id) [⟨1, 2, 3⟩] [⟨4, 5, 6⟩]
      = { rotation := Mat3.id, model_offset := ⟨1, 2, 3⟩, world_offset := ⟨4, 5, 6⟩ } := by
  norm_num [AbsoluteView.fit, vecMean, vecSum, Vec3.add_def, Vec3.sub_def]

/--
C4 (code bug evidence): on a degenerate input whose model points coincide after
centering, the cross-covariance matrix of the centered point sets is the zero matrix —
every singular value is zero — yet `AbsoluteView.__init__` performs no such check (no
`DegenerateCalibrationError` exists anywhere in the repository) and silently returns a
transform.
-/
theorem fit_degenerate_input_silent :
    crossCovariance
        (([⟨0, 0, 0⟩, ⟨2, 0, 0⟩] : List Vec3).map
          (fun p => p - vecMean [⟨0, 0, 0⟩, ⟨2, 0, 0⟩]))
        (([⟨0, 0, 0⟩, ⟨0, 0, 0⟩] : List Vec3).map
          (fun p => p - vecMean [⟨0, 0, 0⟩, ⟨0, 0, 0⟩])) = Mat3.zero
    ∧ AbsoluteView.fit (fun _ _ => Mat3.id) [⟨0, 0, 0⟩, ⟨0, 0, 0⟩] [⟨0, 0, 0⟩, ⟨2, 0, 0⟩]
      = { rotation := Mat3.id, model_offset := ⟨0, 0, 0⟩, world_offset := ⟨1, 0, 0⟩ } := by
  norm_num [crossCovariance, outer, Mat3.add, Mat3.zero, AbsoluteView.fit, vecMean, vecSum,
    Vec3.add_def, Vec3.sub_def]

/--
C5 (code bug evidence): when every axis's motion segment is empty,
`__calculate_waypoints` does not raise any `NoMotionError` (the class exists nowhere in
the repository): it logs an error and returns `None`, which the callers
`move_relative` / `move_absolute` then unpack as `t, p = ...`, crashing with a
`TypeError`.  The embedding evaluates to `none` on the all-empty input.
-/
theorem calculate_waypoints_all_empty_none :
    calculateWaypoints 10000 ⟨5, 5, 5⟩ [] [] [] [] [] [] = none := rfl

/--
C7: in the per-waypoint loops of `move_relative` / `move_absolute`, when
`parameters.realtime` is disabled no sleep is performed at all, and when it is enabled
the i-th step sleeps exactly `max(0, t[i] - elapsedSimTime - renderTime_i)` where the
elapsed simulated time before step i is the previous waypoint's timestamp (`0.0` before
the first step).
-/
theorem move_loop_pacing (frames : List (ℚ × ℚ)) :
    stepSleeps false 0 frames = [] ∧
    stepSleeps true 0 frames
      = List.zipWith (fun f prev => max 0 (f.1 - prev - f.2)) frames
          (0 :: frames.map Prod.fst) :=
  ⟨stepSleeps_of_not_realtime 0 frames, stepSleeps_of_realtime 0 frames⟩

/--
C8: `StageModel.are_colliding` is symmetric: both the `None`-mesh short-circuit and
the box intersection test give the same answer with the arguments swapped.
-/
theorem are_colliding_symm (m1 m2 : StageModelE) :
    m1.are_colliding m2 = m2.are_colliding m1 := by
  obtain ⟨s1⟩ := m1
  obtain ⟨s2⟩ := m2
  cases s1 with
  | none =>
      cases s2 with
      | none => rfl
      | some b => rfl
  | some a =>
      cases s2 with
      | none => rfl
      | some b => exact intersects_symm a b

/--
C9: a collision query before the safety-distance meshes are built returns `False`
rather than raising: if either side's mesh is `None`, `StageModel.are_colliding` and
`ChipModel.is_stage_colliding` both report no collision.
-/
theorem none_mesh_reports_no_collision (m1 m2 sm : StageModelE) (c : ChipModelE) :
    (m1.safety_distance_mesh = none ∨ m2.safety_distance_mesh = none →
      m1.are_colliding m2 = false) ∧
    (c.safety_distance_mesh = none ∨ sm.safety_distance_mesh = none →
      c.is_stage_colliding sm = false) := by
  obtain ⟨s1⟩ := m1
  obtain ⟨s2⟩ := m2
  obtain ⟨sc⟩ := c
  obtain ⟨sm2⟩ := sm
  constructor
  · rintro (h | h)
    · simp only at h
      subst h
      cases s2 <;> rfl
    · simp only at h
      subst h
      cases s1 <;> rfl
  · rintro (h | h)
    · simp only at h
      subst h
      cases sm2 <;> rfl
    · simp only at h
      subst h
      cases sc <;> rfl

/-- Witness for C9: concrete queries with one mesh still unbuilt report `false`. -/
theorem none_mesh_reports_no_collision_witness :
    StageModelE.are_colliding ⟨none⟩ ⟨some ⟨⟨0, 0, 0⟩, 1, 1, 1⟩⟩ = false ∧
    ChipModelE.is_stage_colliding ⟨none⟩ ⟨some ⟨⟨0, 0, 0⟩, 1, 1, 1⟩⟩ = false :=
  ⟨(none_mesh_reports_no_collision ⟨none⟩ ⟨some ⟨⟨0, 0, 0⟩, 1, 1, 1⟩⟩
      ⟨some ⟨⟨0, 0, 0⟩, 1, 1, 1⟩⟩ ⟨none⟩).1 (Or.inl rfl),
   (none_mesh_reports_no_collision ⟨none⟩ ⟨some ⟨⟨0, 0, 0⟩, 1, 1, 1⟩⟩
      ⟨some ⟨⟨0, 0, 0⟩, 1, 1, 1⟩⟩ ⟨none⟩).2 (Or.inl rfl)⟩

/--
C10: the collision flags are sticky within a run: whatever the per-step collision
results are on later steps, once `stage_collision` / `chip_collision` is `True` it stays
`True` through any sequence of `render_simulation_step` calls — the detectors' no-collision
branches reset only the status text and color, never the flags.
-/
theorem collision_flags_sticky
    (steps : List (List StageModelE × Option ChipModelE)) (s : SimState) :
    (s.stage_collision = true → (runSteps steps s).stage_collision = true) ∧
    (s.chip_collision = true → (runSteps steps s).chip_collision = true) := by
  induction steps generalizing s with
  | nil => exact ⟨fun h => h, fun h => h⟩
  | cons st rest ih =>
      obtain ⟨models, chip⟩ := st
      refine ⟨fun h => ?_, fun h => ?_⟩
      · exact (ih _).1 ((renderSimulationStep_flags_mono models chip s).1 h)
      · exact (ih _).2 ((renderSimulationStep_flags_mono models chip s).2 h)

/--
C1: for any three per-axis motion segments of arbitrary (differing, possibly zero)
lengths, not all empty, `__calculate_waypoints` returns position sequences for X, Y and
Z whose lengths all equal the shared time vector's length, and whose final entries equal
each axis's commanded target, for every decimation `sampling_rate ≥ 1`.  The hypotheses
record what the external motion profiler guarantees: each segment has as many positions
as timestamps, and a non-empty segment's last sample is the axis's target.
-/
theorem waypoints_synchronized (sr : ℕ) (hsr : 1 ≤ sr) (target : Vec3)
    (tx xs ty ys tz zs : List ℚ)
    (hlx : xs.length = tx.length) (hly : ys.length = ty.length)
    (hlz : zs.length = tz.length)
    (hne : ¬(tx.length = 0 ∧ ty.length = 0 ∧ tz.length = 0))
    (hx : xs ≠ [] → xs.getLastD 0 = target.x)
    (hy : ys ≠ [] → ys.getLastD 0 = target.y)
    (hz : zs ≠ [] → zs.getLastD 0 = target.z) :
    ∃ t x y z, calculateWaypoints sr target tx xs ty ys tz zs = some (t, x, y, z)
      ∧ x.length = t.length ∧ y.length = t.length ∧ z.length = t.length
      ∧ x.getLastD 0 = target.x ∧ y.getLastD 0 = target.y ∧ z.getLastD 0 = target.z := by
  have heq : calculateWaypoints sr target tx xs ty ys tz zs
      = some (timeVector sr tx ty tz,
              axisVector sr (timeVector sr tx ty tz).length target.x xs,
              axisVector sr (timeVector sr tx ty tz).length target.y ys,
              axisVector sr (timeVector sr tx ty tz).length target.z zs) := by
    unfold calculateWaypoints
    rw [if_neg hne]
  obtain ⟨hM1, hM2, hM3⟩ := le_masterTimeline_length tx ty tz
  have hlen : ∀ L : List ℚ, L.length ≤ (masterTimeline tx ty tz).length →
      (L.length + sr - 1) / sr + 1 ≤ (timeVector sr tx ty tz).length := by
    intro L hL
    rw [timeVector_length]
    exact Nat.add_le_add_right (Nat.div_le_div_right (by omega)) 1
  refine ⟨_, _, _, _, heq, ?_, ?_, ?_, axisVector_getLastD hx, axisVector_getLastD hy,
    axisVector_getLastD hz⟩
  · exact axisVector_length _ _ (hlen xs (by omega))
  · exact axisVector_length _ _ (hlen ys (by omega))
  · exact axisVector_length _ _ (hlen zs (by omega))

/-- Witness for C1 at concrete segments of differing lengths (X three samples, Y one
sample, Z empty) with decimation 2. -/
theorem waypoints_synchronized_witness :
    ∃ t x y z,
      calculateWaypoints 2 ⟨5, 8, 9⟩ [0, 1, 2] [3, 4, 5] [0] [8] [] [] = some (t, x, y, z)
      ∧ x.length = t.length ∧ y.length = t.length ∧ z.length = t.length
      ∧ x.getLastD 0 = 5 ∧ y.getLastD 0 = 8 ∧ z.getLastD 0 = 9 :=
  waypoints_synchronized 2 (by decide) ⟨5, 8, 9⟩ [0, 1, 2] [3, 4, 5] [0] [8] [] []
    rfl rfl rfl (by decide) (by decide) (by decide) (by decide)

/--
C6 counterexample: with master timeline `[0, 1, 2]` and `sampling_rate = 2`, the last
sample survives decimation (`[0, 2]`) and `np.append(t_max[::2], t_max[-1])` duplicates
it: the returned time vector is `[0, 2, 2]`, which is not strictly increasing — the
retained final timestamp equals, rather than strictly exceeds, the preceding decimated
one.
-/
theorem waypoint_timestamps_not_strictly_increasing :
    calculateWaypoints 2 ⟨5, 8, 9⟩ [0, 1, 2] [3, 4, 5] [] [] [] []
      = some ([0, 2, 2], [3, 5, 5], [8, 8, 8], [9, 9, 9])
    ∧ ¬ ([0, 2, 2] : List ℚ).Pairwise (· < ·) :=
  ⟨rfl, by decide⟩

/--
C6 (amended): for strictly increasing per-axis timelines and any decimation
`sampling_rate ≥ 1`, the shared time vector is nondecreasing, and strictly increasing
except possibly at the appended final sample: its prefix with the last entry removed is
strictly increasing, and the final entry is greater than or equal to (not always
strictly greater than) its predecessor — equality occurs exactly when the master
timeline's last sample already survives decimation.
-/
theorem waypoint_timestamps_monotone (sr : ℕ) (hsr : 1 ≤ sr) (target : Vec3)
    (tx xs ty ys tz zs : List ℚ)
    (htx : tx.Pairwise (· < ·)) (hty : ty.Pairwise (· < ·)) (htz : tz.Pairwise (· < ·))
    (t x y z : List ℚ)
    (h : calculateWaypoints sr target tx xs ty ys tz zs = some (t, x, y, z)) :
    t.dropLast.Pairwise (· < ·) ∧ t.Pairwise (· ≤ ·) := by
  unfold calculateWaypoints at h
  by_cases hne : tx.length = 0 ∧ ty.length = 0 ∧ tz.length = 0
  · rw [if_pos hne] at h
    exact Option.noConfusion h
  · rw [if_neg hne, Option.some.injEq] at h
    have ht : timeVector sr tx ty tz = t := congrArg Prod.fst h
    subst ht
    have hMp : (masterTimeline tx ty tz).Pairwise (· < ·) :=
      masterTimeline_pairwise htx hty htz
    constructor
    · rw [timeVector, List.dropLast_concat]
      exact pairwise_lt_sliceStep hsr hMp
    · rw [timeVector, List.pairwise_append]
      refine ⟨List.Pairwise.imp (fun hab => le_of_lt hab) (pairwise_lt_sliceStep hsr hMp),
        by simp, ?_⟩
      intro a ha b hb
      rw [List.mem_singleton] at hb
      subst hb
      exact mem_sliceStep_le_getLastD hsr hMp (masterTimeline_ne_nil hne) ha

/-- Witness for the amended C6 at a concrete non-duplicating input (master timeline
`[0, 1]`, decimation 3). -/
theorem waypoint_timestamps_monotone_witness :
    ([0, 1] : List ℚ).dropLast.Pairwise (· < ·) ∧ ([0, 1] : List ℚ).Pairwise (· ≤ ·) :=
  waypoint_timestamps_monotone 3 (by decide) ⟨7, 1, 2⟩ [0, 1] [4, 7] [] [] [] []
    (by decide) (by decide) (by decide) [0, 1] [4, 7] [1, 1] [2, 2] rfl

/-- Witness for C10: a step whose volumes do not collide leaves both set flags `true`. -/
theorem collision_flags_sticky_witness :
    (runSteps [([⟨none⟩, ⟨none⟩], some ⟨none⟩)]
      ⟨true, true, "", "", "", ""⟩).stage_collision = true ∧
    (runSteps [([⟨none⟩, ⟨none⟩], some ⟨none⟩)]
      ⟨true, true, "", "", "", ""⟩).chip_collision = true :=
  ⟨(collision_flags_sticky [([⟨none⟩, ⟨none⟩], some ⟨none⟩)]
      ⟨true, true, "", "", "", ""⟩).1 rfl,
   (collision_flags_sticky [([⟨none⟩, ⟨none⟩], some ⟨none⟩)]
      ⟨true, true, "", "", "", ""⟩).2 rfl⟩

end LabSim
